import Mathlib

/-!
Verification development for the Proton runtime acquisition/update pipeline of
the ULWGL/umu launcher (source file `umu_proton.py`).

The Python source is shallowly embedded: the process environment, the runtime
store (`compatibilitytools.d`), the staging directory and the `env` dictionary
are threaded explicitly through a `St` record; everything the network and the
external helpers decide (HTTP statuses, response bodies, the zenity exit code,
the content of the downloaded archive, delivery of a keyboard interrupt) is an
oracle record `World`.  Python exceptions become an `Exc` sum threaded through
`Except`, and each operation additionally returns the list of observable events
(network calls, digest verification, extraction) it performed, so that ordering
properties can be stated about traces.

The SHA-512 function used by the downloader (`hashlib.sha512`) is embedded as a
pure function over byte lists (FIPS 180-4), with 64-bit words represented as
`Nat` reduced modulo `2 ^ 64`.
-/

set_option maxRecDepth 1000000

set_option maxHeartbeats 1000000

/-! ### SHA-512 (the `hashlib.sha512` collaborator used at umu_proton.py:201-225) -/

/-- The modulus for 64-bit machine words. -/
def w64mod : Nat := 18446744073709551616

/-- Right rotation of a 64-bit word by `n` bits. -/
def rotr64 (n x : Nat) : Nat := ((x >>> n) ||| (x <<< (64 - n))) % w64mod

def bigSigma0 (x : Nat) : Nat := (rotr64 28 x) ^^^ (rotr64 34 x) ^^^ (rotr64 39 x)

def bigSigma1 (x : Nat) : Nat := (rotr64 14 x) ^^^ (rotr64 18 x) ^^^ (rotr64 41 x)

def smallSigma0 (x : Nat) : Nat := (rotr64 1 x) ^^^ (rotr64 8 x) ^^^ (x >>> 7)

def smallSigma1 (x : Nat) : Nat := (rotr64 19 x) ^^^ (rotr64 61 x) ^^^ (x >>> 6)

def chFn (x y z : Nat) : Nat := (x &&& y) ^^^ ((x ^^^ 0xffffffffffffffff) &&& z)

def majFn (x y z : Nat) : Nat := (x &&& y) ^^^ (x &&& z) ^^^ (y &&& z)

/-- Bounded binary search for the greatest `k` with `f k ≤ n`, for a
monotone `f` with `f 0 = 0`; the fuel bounds the number of halvings. -/
def bsearchAux (f : Nat → Nat) (n : Nat) : Nat → Nat → Nat → Nat
  | 0, lo, _ => lo
  | fuel + 1, lo, hi =>
    let mid := (lo + hi) / 2
    if mid = lo then lo
    else if f mid ≤ n then bsearchAux f n fuel mid hi
    else bsearchAux f n fuel lo mid

/-- Integer square root (greatest `k` with `k * k ≤ n`). -/
def isqrt (n : Nat) : Nat := bsearchAux (fun k => k * k) n 256 0 (n + 1)

/-- Integer cube root (greatest `k` with `k * k * k ≤ n`). -/
def icbrt (n : Nat) : Nat := bsearchAux (fun k => k * k * k) n 256 0 (n + 1)

/-- Trial-division primality helper: no divisor `d` with `d * d ≤ n`. -/
def noDivisorAux (n : Nat) : Nat → Nat → Bool
  | 0, _ => true
  | fuel + 1, d =>
    if n < d * d then true
    else if n % d = 0 then false
    else noDivisorAux n fuel (d + 1)

def isPrime (n : Nat) : Bool := decide (2 ≤ n) && noDivisorAux n n 2

/-- The primes among `start, start + 1, …` found within `fuel` steps. -/
def primesFromAux : Nat → Nat → List Nat
  | 0, _ => []
  | fuel + 1, n =>
    if isPrime n then n :: primesFromAux fuel (n + 1) else primesFromAux fuel (n + 1)

/-- The first eighty primes, 2 through 409. -/
def primes80 : List Nat := (primesFromAux 410 2).take 80

/-- The 80 SHA-512 round constants (FIPS 180-4, section 4.2.3): the first 64
bits of the fractional parts of the cube roots of the first 80 primes. -/
def K512 : List Nat := primes80.map (fun p => icbrt (p <<< 192) - (icbrt p <<< 64))

/-- The initial SHA-512 hash value (FIPS 180-4, section 5.3.5): the first 64
bits of the fractional parts of the square roots of the first 8 primes. -/
def H512 : List Nat := (primes80.take 8).map (fun p => isqrt (p <<< 128) - (isqrt p <<< 64))

/-- Big-endian encoding of `n` into `k` bytes. -/
def toBE (k n : Nat) : List Nat := (List.range k).map (fun i => (n >>> (8 * (k - 1 - i))) % 256)

/-- Big-endian decoding of a byte list. -/
def fromBE (bs : List Nat) : Nat := bs.foldl (fun a b => a * 256 + b % 256) 0

/-- SHA-512 message padding: a `0x80` byte, zeros up to 112 mod 128, then the
bit length in 16 big-endian bytes. -/
def padMessage (msg : List Nat) : List Nat :=
  msg ++ [0x80] ++ List.replicate ((128 - ((msg.length + 17) % 128)) % 128) 0
      ++ toBE 16 (8 * msg.length)

/-- Fold `f` over `n` consecutive 128-byte blocks of `l`. -/
def foldBlocks (f : List Nat → List Nat → List Nat) : Nat → List Nat → List Nat → List Nat
  | 0, H, _ => H
  | n + 1, H, l => foldBlocks f n (f H (l.take 128)) (l.drop 128)

/-- One step of the SHA-512 message-schedule extension. -/
def stepW (ws : List Nat) : List Nat :=
  let n := ws.length
  ws ++ [(smallSigma1 (ws.getD (n - 2) 0) + ws.getD (n - 7) 0
          + smallSigma0 (ws.getD (n - 15) 0) + ws.getD (n - 16) 0) % w64mod]

/-- Extend the 16 message words of a block to the 80 schedule words. -/
def scheduleW (ws : List Nat) : List Nat := (List.range 64).foldl (fun acc _ => stepW acc) ws

/-- One SHA-512 compression round on the eight working variables. -/
def sha512Round (st : List Nat) (kt wt : Nat) : List Nat :=
  match st with
  | [a, b, c, d, e, f, g, h] =>
    let T1 := (h + bigSigma1 e + chFn e f g + kt + wt) % w64mod
    let T2 := (bigSigma0 a + majFn a b c) % w64mod
    [(T1 + T2) % w64mod, a, b, c, (d + T1) % w64mod, e, f, g]
  | other => other

/-- SHA-512 compression of one 128-byte block into the running hash value. -/
def compressBlock (H block : List Nat) : List Nat :=
  let ws := scheduleW ((List.range 16).map (fun i => fromBE ((block.drop (8 * i)).take 8)))
  let fin := (List.range 80).foldl (fun st t => sha512Round st (K512.getD t 0) (ws.getD t 0)) H
  List.zipWith (fun x y => (x + y) % w64mod) H fin

/-- The eight 64-bit words of the SHA-512 digest of `msg`. -/
def sha512Words (msg : List Nat) : List Nat :=
  foldBlocks compressBlock ((padMessage msg).length / 128) H512 (padMessage msg)

/-- Lowercase hexadecimal character for a value below 16, as produced by
`hashlib`'s `hexdigest`. -/
def hexChar (n : Nat) : Char := if n < 10 then Char.ofNat (48 + n) else Char.ofNat (87 + n)

/-- Lowercase hexadecimal rendering of one 64-bit word. -/
def hexWord64 (n : Nat) : String :=
  String.mk ((List.range 16).map (fun i => hexChar ((n >>> (4 * (15 - i))) % 16)))

/-- The value of `sha512(bytes(msg)).hexdigest()`: the lowercase hexadecimal
SHA-512 digest of the byte list `msg`. -/
def sha512hex (msg : List Nat) : String := String.join ((sha512Words msg).map hexWord64)

/-! ### Python string operations used by the source -/

/-- Auxiliary scan for `strFind`. -/
def strFindAux (pat : List Char) : List Char → Nat → Option Nat
  | [], i => if pat.isPrefixOf ([] : List Char) then some i else none
  | c :: rest, i => if pat.isPrefixOf (c :: rest) then some i else strFindAux pat rest (i + 1)

/-- Python `s.find(pat)`: the least index at which `pat` occurs in `s`, or
`none` where Python returns `-1`. -/
def strFind (s pat : String) : Option Nat := strFindAux pat.data s.data 0

/-- Python `s.startswith(pre)`, computed on the underlying char lists. -/
def pyStartsWith (s pre : String) : Bool := pre.data.isPrefixOf s.data

/-- Python `s.endswith(suffix)`, computed on the underlying char lists. -/
def pyEndsWith (s suffix : String) : Bool := suffix.data.isSuffixOf s.data

/-- Python `s.split(" ")[0]`: the characters before the first space. -/
def firstToken (s : String) : String := String.mk (s.data.takeWhile (fun c => !(c == ' ')))

/-- Python truthiness of an optional string (absent or empty is falsy). -/
def truthy : Option String → Bool
  | none => false
  | some s => !(s == "")

/-- Boolean lexicographic comparison of char lists by code point; this is the
comparison Python applies to the path names in `max(protons)`. -/
def charsLt : List Char → List Char → Bool
  | _, [] => false
  | [], _ :: _ => true
  | a :: as, b :: bs => a < b || (a == b && charsLt as bs)

/-- Python `max` over a list of strings: the first maximal element under
lexicographic comparison (`""` for the empty list, on which Python raises). -/
def pyMax : List String → String
  | [] => ""
  | x :: xs => xs.foldl (fun a b => if charsLt a.data b.data then b else a) x

/-! ### The file-system and environment model -/

/-- Names present in a directory listing, as a list without duplicates being
assumed; adding an already-present name is a no-op, as for a file system. -/
def addFile (l : List String) (n : String) : List String :=
  if l.contains n then l else l ++ [n]

/-- Removal (`unlink` / `rmtree`) of a name from a directory listing. -/
def removeFile (l : List String) (n : String) : List String :=
  l.filter (fun m => !(m == n))

/-- Remove from listing `l` each name of `ps` that is still present: the
retirement loop of `_update_proton` (umu_proton.py:408-414). -/
def removeEach (l ps : List String) : List String :=
  ps.foldl (fun acc p => if acc.contains p then removeFile acc p else acc) l

/-- Observable events of one pipeline run: the network calls, the digest
verification and the archive extraction. -/
inductive Ev where
  | queryIndex
  | fetchDigestFile
  | zenityDownload
  | httpDownload
  | verifyDigest
  | extractArchive
  deriving Repr, DecidableEq

/-- The Python exception classes that can cross the functions of
umu_proton.py, by class. -/
inductive Exc where
  | valueError (msg : String)
  | httpException (msg : String)
  | keyboardInterrupt
  | urlError
  | runtimeError (msg : String)
  | osError (msg : String)
  | tarError (msg : String)
  deriving Repr, DecidableEq

deriving instance DecidableEq for Except

/-- One asset object of a GitHub release, with its two consumed fields
(`asset.get` returns `none` for a missing field). -/
structure Asset where
  name : Option String
  browser_download_url : Option String
  deriving Repr, DecidableEq

/-- Everything decided outside the program: the release index reply, the two
download replies, the zenity helper's exit status, the archive's content
(reported as the top-level directory its extraction creates, `none` for an
unreadable archive) and whether a keyboard interrupt arrives during the
built-in download loop. -/
structure World where
  urlError : Bool
  indexStatus : Nat
  releases : List (List Asset)
  digestStatus : Nat
  digestLines : List String
  zenityRet : Nat
  archiveStatus : Nat
  archiveBytes : List Nat
  interrupt : Bool
  extractTop : Option String
  deriving Repr, DecidableEq

/-- The mutable state threaded through a run: the runtime store directory
listing, the `UMU-Latest` symlink target, the staging (tmp) directory listing,
`environ["PROTONPATH"]`, the `env` dict's `"PROTONPATH"` entry, and
`environ["UMU_ZENITY"]`. -/
structure St where
  compat : List String
  aliasTarget : Option String
  tmpFiles : List String
  environPP : Option String
  envPP : Option String
  umuZenity : Option String
  deriving Repr, DecidableEq

/-- Modelled from the spec: the runtime store root `STEAM_COMPAT` comes from
the `umu_consts` module, which is not among the given sources; the spec fixes
it as the well-known directory `~/.local/share/Steam/compatibilitytools.d`. -/
def STEAM_COMPAT : String := "~/.local/share/Steam/compatibilitytools.d"

/-- Python `steam_compat.joinpath(name).as_posix()`. -/
def compatPath (name : String) : String := STEAM_COMPAT ++ "/" ++ name

/-- The vendor selector of umu_proton.py:317-321 and 270-274: `"GE-Proton"`
when `environ.get("PROTONPATH") == "GE-Proton"`, else `"UMU-Proton"`. -/
def versionString (st : St) : String :=
  if st.environPP == some "GE-Proton" then "GE-Proton" else "UMU-Proton"

/-! ### `_fetch_releases` (umu_proton.py:80-136) -/

/-- The asset filter of umu_proton.py:105-117: a truthy name that either ends
with `"sum"` or ends with `"tar.gz"` while starting with a recognized vendor
name, and a truthy download URL. -/
def qualifying (a : Asset) : Bool :=
  truthy a.name &&
    (pyEndsWith (a.name.getD "") "sum" ||
      (pyEndsWith (a.name.getD "") "tar.gz" &&
        (pyStartsWith (a.name.getD "") "UMU-Proton" || pyStartsWith (a.name.getD "") "GE-Proton"))) &&
  truthy a.browser_download_url

/-- The inner asset loop of umu_proton.py:104-127: append each qualifying
asset in encounter order (the source's `if name.endswith("sum")`/`else`
branches append the identical tuple), stopping once two are collected. -/
def collectFiles : List Asset → List (String × String) → List (String × String)
  | [], files => files
  | a :: rest, files =>
    let files1 := if qualifying a
      then files ++ [(a.name.getD "", a.browser_download_url.getD "")]
      else files
    if files1.length == 2 then files1 else collectFiles rest files1

/-- The release loop of umu_proton.py:101-128: skip releases with a falsy
asset list, inspect the first remaining one only (the loop body ends in
`break`). -/
def firstAssets : List (List Asset) → List Asset
  | [] => []
  | r :: rest => if r.isEmpty then firstAssets rest else r

/-- Embedding of `_fetch_releases` (umu_proton.py:80-136).  A transport-level
`URLError` from `urlopen` propagates; a non-200 status returns the (empty)
`files` list from within the `with` block (umu_proton.py:98-99), skipping the
length check; otherwise the first release with assets is scanned and a
`RuntimeError` is raised unless exactly two files were collected. -/
def _fetch_releases (w : World) : Except Exc (List (String × String)) × List Ev :=
  if w.urlError then (.error .urlError, [.queryIndex])
  else if w.indexStatus != 200 then (.ok [], [.queryIndex])
  else
    let files := collectFiles (firstAssets w.releases) []
    if files.length != 2 then
      (.error (.runtimeError "Failed to get complete information for Proton at api.github.com"),
       [.queryIndex])
    else (.ok files, [.queryIndex])

/-! ### `_fetch_proton` (umu_proton.py:139-227) -/

/-- The digest-file parse of umu_proton.py:171-173: for each line ending with
the archive name, take the first space-separated token (the last matching line
wins). -/
def parseDigest (lines : List String) (proton : String) : String :=
  lines.foldl (fun digest line =>
    if pyEndsWith line proton then firstToken line else digest) ""

/-- The digest comparison of umu_proton.py:221: `hash.hexdigest() != digest`,
an exact string comparison against the lowercase hexadecimal digest. -/
def hexdigestMatches (payload : List Nat) (digest : String) : Bool :=
  sha512hex payload == digest

/-- Embedding of `_fetch_proton` (umu_proton.py:139-227).  Checks the URL
schemes, downloads and parses the digest file, optionally runs the zenity
helper (`environ.get("UMU_ZENITY") == "1"`), unlinking its partial file on a
non-zero exit, and runs the built-in chunked downloader (which is the only
place the digest is verified) when zenity was not used or failed.  The
keyboard interrupt of the `World` is delivered during the built-in download
loop. -/
def _fetch_proton (w : World) (st : St) (files : List (String × String)) :
    Except Exc Unit × St × List Ev :=
  let hash_url := (files.getD 0 ("", "")).2
  let proton := (files.getD 1 ("", "")).1
  let proton_url := (files.getD 1 ("", "")).2
  if !(pyStartsWith proton_url "https:") || !(pyStartsWith hash_url "https:") then
    (.error (.valueError "Scheme in URLs is not https:"), st, [])
  else if w.digestStatus != 200 then
    (.error (.httpException "Unable to download the digest file"), st, [.fetchDigestFile])
  else
    let digest := parseDigest w.digestLines proton
    let zenityOn := st.umuZenity == some "1"
    let ret := if zenityOn then w.zenityRet else 0
    let st1 := if zenityOn then { st with tmpFiles := addFile st.tmpFiles proton } else st
    let tr1 := if zenityOn then [Ev.fetchDigestFile, Ev.zenityDownload] else [Ev.fetchDigestFile]
    let st2 := if ret != 0 then { st1 with tmpFiles := removeFile st1.tmpFiles proton } else st1
    if !(truthy st.umuZenity) || ret != 0 then
      if w.archiveStatus != 200 then
        (.error (.httpException "Unable to download the archive"), st2, tr1 ++ [Ev.httpDownload])
      else if w.interrupt then
        (.error .keyboardInterrupt, { st2 with tmpFiles := addFile st2.tmpFiles proton },
         tr1 ++ [Ev.httpDownload])
      else
        let st3 := { st2 with tmpFiles := addFile st2.tmpFiles proton }
        if !(hexdigestMatches w.archiveBytes digest) then
          (.error (.valueError ("Digests mismatched for " ++ proton)), st3,
           tr1 ++ [Ev.httpDownload, Ev.verifyDigest])
        else (.ok (), st3, tr1 ++ [Ev.httpDownload, Ev.verifyDigest])
    else (.ok (), st2, tr1)

/-! ### `_extract_dir`, `_cleanup`, `_update_proton` (umu_proton.py:230-260, 383-414) -/

/-- Embedding of `_extract_dir` (umu_proton.py:230-244): opening a missing
staging file raises `FileNotFoundError`; an unreadable archive raises
tarfile's `ReadError`; otherwise the archive's top-level directory appears in
the store. -/
def _extract_dir (w : World) (st : St) (file : String) : Except Exc Unit × St × List Ev :=
  if !(st.tmpFiles.contains file) then
    (.error (.osError "FileNotFoundError"), st, [])
  else
    match w.extractTop with
    | none => (.error (.tarError "ReadError"), st, [])
    | some d => (.ok (), { st with compat := addFile st.compat d }, [Ev.extractArchive])

/-- Embedding of `_cleanup` (umu_proton.py:247-260): unlink the staging
archive if present, remove the partially-extracted build directory if
present. -/
def _cleanup (tarball proton : String) (st : St) : St :=
  let st1 := if st.tmpFiles.contains tarball
    then { st with tmpFiles := removeFile st.tmpFiles tarball } else st
  if st1.compat.contains proton
    then { st1 with compat := removeFile st1.compat proton } else st1

/-- Embedding of `_update_proton` (umu_proton.py:383-414): relink the
`UMU-Latest` symlink to the new build, then remove each previous stable build
that still exists.  The source submits the removals to the worker pool and
joins them; the removals touch directories disjoint from the extraction
target, so they are modelled sequentially. -/
def _update_proton (proton : String) (st : St) (protons : List String) : St :=
  { st with aliasTarget := some proton, compat := removeEach st.compat protons }

/-! ### `_get_latest` (umu_proton.py:294-380) and `_get_from_steamcompat` (263-291) -/

/-- Python `tarball[: tarball.find(".tar.gz")]` (umu_proton.py:316): truncate
at the first occurrence of `".tar.gz"`, or drop the last character when the
substring is absent (`find` returns `-1`). -/
def protonDirOf (tarball : String) : String :=
  match strFind tarball ".tar.gz" with
  | some i => tarball.take i
  | none => tarball.take (tarball.length - 1)

/-- The `except` clauses of `_get_latest` (umu_proton.py:362-378): a
`ValueError` unlinks the staging archive and returns `None`; a
`KeyboardInterrupt` runs `_cleanup` and returns `None`; an `HTTPException`
returns `None`; every other exception propagates. -/
def _get_latest_rescue (e : Exc) (st : St) (tarball proton_dir : String) :
    Except Exc (Option Unit) × St :=
  match e with
  | .valueError _ => (.ok none, { st with tmpFiles := removeFile st.tmpFiles tarball })
  | .keyboardInterrupt => (.ok none, _cleanup tarball proton_dir st)
  | .httpException _ => (.ok none, st)
  | e => (.error e, st)

/-- The common tail of `_get_latest`'s download path (umu_proton.py:341-361
and 376-378): extract the staging archive (given the extraction attempt's
result `er`), for the UMU vendor run `_update_proton` over the previously
globbed stable builds `protons?`, then set both `PROTONPATH`s to the new
build's path and unlink the staging archive; an extraction failure goes
through the `except` clauses. -/
def _get_latest_post (proton tarball : String) (tr1 : List Ev)
    (pruned : Option (List String)) (er : Except Exc Unit × St × List Ev) :
    Except Exc (Option Unit) × St × List Ev :=
  match er with
  | (.error e, st2, tr2) =>
    let r := _get_latest_rescue e st2 tarball proton
    (r.1, r.2, tr1 ++ tr2)
  | (.ok _, st2, tr2) =>
    let st3 := match pruned with
      | some protons => _update_proton proton st2 protons
      | none => st2
    (.ok (some ()),
     { st3 with environPP := some (compatPath proton),
                envPP := some (compatPath proton),
                tmpFiles := removeFile st3.tmpFiles tarball }, tr1 ++ tr2)

/-- The download path of `_get_latest` (umu_proton.py:331-361): dispatch on
the fetch attempt's result `fr`; a fetch failure goes through the `except`
clauses; on success, for the UMU vendor the store is globbed for previous
stable builds to retire concurrently with extraction, while for GE-Proton
only extraction occurs. -/
def _get_latest_fin (w : World) (st : St) (tarball proton : String)
    (fr : Except Exc Unit × St × List Ev) : Except Exc (Option Unit) × St × List Ev :=
  match fr with
  | (.error e, st1, tr1) =>
    let r := _get_latest_rescue e st1 tarball proton
    (r.1, r.2, tr1)
  | (.ok _, st1, tr1) =>
    if versionString st == "UMU-Proton" then
      let protons := st1.compat.filter
        (fun n => pyStartsWith n "UMU-Proton" || pyStartsWith n "ULWGL-Proton")
      _get_latest_post proton tarball tr1 (some protons) (_extract_dir w st1 tarball)
    else
      _get_latest_post proton tarball tr1 none (_extract_dir w st1 tarball)

/-- Embedding of `_get_latest` (umu_proton.py:294-380).  Returns `some ()`
where the source returns the `env` dict and `none` where it returns `None`.
The up-to-date fast path relinks the alias and sets both `PROTONPATH`s
before any download; otherwise the download path of `_get_latest_fin` runs. -/
def _get_latest (w : World) (st : St) (files : List (String × String)) :
    Except Exc (Option Unit) × St × List Ev :=
  if files.isEmpty then (.ok none, st, [])
  else
    let tarball := (files.getD 1 ("", "")).1
    let proton := protonDirOf tarball
    if st.compat.contains proton then
      (.ok (some ()),
       { st with aliasTarget := some proton,
                 environPP := some (compatPath proton),
                 envPP := some (compatPath proton) }, [])
    else
      _get_latest_fin w st tarball proton (_fetch_proton w st files)

/-- Embedding of `_get_from_steamcompat` (umu_proton.py:263-291): filter the
store for names starting with the vendor selector, and if any exist set both
`PROTONPATH`s to the path of the Python-`max` (lexicographically maximal)
entry. -/
def _get_from_steamcompat (st : St) : Option St :=
  let protons := st.compat.filter (fun n => pyStartsWith n (versionString st))
  if protons.isEmpty then none
  else some { st with environPP := some (compatPath (pyMax protons)),
                      envPP := some (compatPath (pyMax protons)) }

/-! ### `get_umu_proton` (umu_proton.py:46-77) -/

/-- The tail of `get_umu_proton` after the release query: try `_get_latest`,
fall back to `_get_from_steamcompat`, and on total failure set
`environ["PROTONPATH"]` to the empty string while returning the `env` dict
unchanged.  The returned value is the `"PROTONPATH"` entry of the returned
`env` dict. -/
def get_umu_proton_after (w : World) (st : St) (files : List (String × String))
    (tr0 : List Ev) : Except Exc (Option String) × St × List Ev :=
  match _get_latest w st files with
  | (.error e, st1, tr1) => (.error e, st1, tr0 ++ tr1)
  | (.ok (some _), st1, tr1) => (.ok st1.envPP, st1, tr0 ++ tr1)
  | (.ok none, st1, tr1) =>
    match _get_from_steamcompat st1 with
    | some st2 => (.ok st2.envPP, st2, tr0 ++ tr1)
    | none => (.ok st1.envPP, { st1 with environPP := some "" }, tr0 ++ tr1)

/-- Embedding of `get_umu_proton` (umu_proton.py:46-77): create a fresh empty
staging directory, query the release index (a `URLError` is caught and leaves
the files list empty; any other exception, such as the `RuntimeError` of
`_fetch_releases`, propagates), then proceed as `get_umu_proton_after`. -/
def get_umu_proton (w : World) (st : St) : Except Exc (Option String) × St × List Ev :=
  let st0 : St := { st with tmpFiles := [] }
  match _fetch_releases w with
  | (.error .urlError, tr0) => get_umu_proton_after w st0 [] tr0
  | (.error e, tr0) => (.error e, st0, tr0)
  | (.ok files, tr0) => get_umu_proton_after w st0 files tr0

/-! ### Trace predicates -/

/-- Scan of a trace checking that every extraction event is preceded by a
digest-verification event; `seen` records whether a verification has already
occurred. -/
def verifiedBeforeExtract (seen : Bool) : List Ev → Bool
  | [] => true
  | e :: rest =>
    match e with
    | .verifyDigest => verifiedBeforeExtract true rest
    | .extractArchive => seen && verifiedBeforeExtract seen rest
    | _ => verifiedBeforeExtract seen rest

/-- The exception classes downgraded to a "no update" result by the `except`
clauses of `_get_latest` (umu_proton.py:362-378). -/
def excCaught : Exc → Bool
  | .valueError _ => true
  | .keyboardInterrupt => true
  | .httpException _ => true
  | _ => false

/-! ### Helper lemmas about the file-system primitives -/

theorem scontains_append (l₁ l₂ : List String) (n : String) :
    (l₁ ++ l₂).contains n = (l₁.contains n || l₂.contains n) := by
  induction l₁ with
  | nil => simp
  | cons a l ih => simp [List.contains_cons, ih, Bool.or_assoc]

theorem scontains_filter (p : String → Bool) (l : List String) (n : String) :
    (l.filter p).contains n = (l.contains n && p n) := by
  induction l with
  | nil => simp
  | cons a l ih =>
    by_cases ha : p a
    · by_cases hn : n = a
      · subst hn
        simp [List.filter_cons, ha, List.contains_cons, ih]
      · simp [List.filter_cons, ha, List.contains_cons, ih, hn]
    · by_cases hn : n = a
      · subst hn
        simp [List.filter_cons, ha, List.contains_cons, ih, Bool.eq_false_iff.mpr ha]
      · simp [List.filter_cons, ha, List.contains_cons, ih, hn]

theorem removeFile_contains (l : List String) (m n : String) :
    (removeFile l m).contains n = (l.contains n && !(n == m)) :=
  scontains_filter (fun x => !(x == m)) l n

theorem removeFile_contains_self (l : List String) (n : String) :
    (removeFile l n).contains n = false := by
  rw [removeFile_contains]
  simp

theorem mem_removeFile {l : List String} {m n : String} :
    n ∈ removeFile l m ↔ n ∈ l ∧ n ≠ m := by
  simp [removeFile, List.mem_filter]

theorem mem_addFile {l : List String} {m n : String} :
    n ∈ addFile l m ↔ n ∈ l ∨ n = m := by
  by_cases hc : l.contains m = true
  · have hm : m ∈ l := List.elem_iff.mp hc
    unfold addFile
    rw [if_pos hc]
    constructor
    · exact fun h => Or.inl h
    · rintro (h | h)
      · exact h
      · exact h ▸ hm
  · have hm : m ∉ l := fun h => hc (List.elem_iff.mpr h)
    unfold addFile
    rw [if_neg hc]
    simp [List.mem_append]

theorem addFile_of_not_contains (l : List String) (m : String) (h : l.contains m = false) :
    addFile l m = l ++ [m] := by
  unfold addFile
  rw [h]
  simp

theorem mem_removeEach {ps l : List String} {n : String} :
    n ∈ removeEach l ps ↔ n ∈ l ∧ n ∉ ps := by
  induction ps generalizing l with
  | nil => simp [removeEach]
  | cons p ps ih =>
    have hstep : removeEach l (p :: ps)
        = removeEach (if l.contains p then removeFile l p else l) ps := rfl
    rw [hstep, ih]
    by_cases hc : l.contains p = true
    · rw [if_pos hc]
      constructor
      · rintro ⟨h1, h2⟩
        rcases mem_removeFile.mp h1 with ⟨h3, h4⟩
        refine ⟨h3, ?_⟩
        intro hmem
        rcases List.mem_cons.mp hmem with he | hm
        · exact h4 he
        · exact h2 hm
      · rintro ⟨h1, h2⟩
        refine ⟨mem_removeFile.mpr ⟨h1, fun he => h2 (List.mem_cons.mpr (Or.inl he))⟩, ?_⟩
        exact fun hm => h2 (List.mem_cons.mpr (Or.inr hm))
    · rw [if_neg hc]
      have hp : p ∉ l := fun h => hc (List.elem_iff.mpr h)
      constructor
      · rintro ⟨h1, h2⟩
        refine ⟨h1, ?_⟩
        intro hmem
        rcases List.mem_cons.mp hmem with he | hm
        · exact hp (he ▸ h1)
        · exact h2 hm
      · rintro ⟨h1, h2⟩
        exact ⟨h1, fun hm => h2 (List.mem_cons.mpr (Or.inr hm))⟩

theorem scontains_iff {l : List String} {n : String} : l.contains n = true ↔ n ∈ l :=
  List.elem_iff

theorem addFile_contains_self (l : List String) (n : String) :
    (addFile l n).contains n = true :=
  scontains_iff.mpr (mem_addFile.mpr (Or.inr rfl))

/-! ### Characterization lemmas for the embedded operations -/

theorem fetch_frame (w : World) (st : St) (files : List (String × String)) :
    ((_fetch_proton w st files).2.1.compat = st.compat) ∧
    ((_fetch_proton w st files).2.1.aliasTarget = st.aliasTarget) ∧
    ((_fetch_proton w st files).2.1.environPP = st.environPP) ∧
    ((_fetch_proton w st files).2.1.envPP = st.envPP) ∧
    ((_fetch_proton w st files).2.1.umuZenity = st.umuZenity) := by
  simp only [_fetch_proton]
  repeat' split
  all_goals simp

theorem fetch_builtin_ok (w : World) (st : St) (files : List (String × String))
    (hn hu tb tu : String)
    (hfiles : files = [(hn, hu), (tb, tu)])
    (hhu : pyStartsWith hu "https:" = true) (htu : pyStartsWith tu "https:" = true)
    (hz : st.umuZenity = none)
    (hds : w.digestStatus = 200) (has : w.archiveStatus = 200) (hint : w.interrupt = false)
    (hdig : sha512hex w.archiveBytes = parseDigest w.digestLines tb) :
    _fetch_proton w st files =
      (.ok (), { st with tmpFiles := addFile st.tmpFiles tb },
       [Ev.fetchDigestFile, Ev.httpDownload, Ev.verifyDigest]) := by
  subst hfiles
  simp [_fetch_proton, hz, hds, has, hint, truthy, hexdigestMatches, hdig, hhu, htu]

theorem fetch_zenity_ok (w : World) (st : St) (files : List (String × String))
    (hn hu tb tu : String)
    (hfiles : files = [(hn, hu), (tb, tu)])
    (hhu : pyStartsWith hu "https:" = true) (htu : pyStartsWith tu "https:" = true)
    (hz : st.umuZenity = some "1") (hr : w.zenityRet = 0)
    (hds : w.digestStatus = 200) :
    _fetch_proton w st files =
      (.ok (), { st with tmpFiles := addFile st.tmpFiles tb },
       [Ev.fetchDigestFile, Ev.zenityDownload]) := by
  subst hfiles
  simp [_fetch_proton, hz, hr, hds, truthy, hhu, htu]

theorem extract_ok (w : World) (st : St) (f d : String)
    (hc : st.tmpFiles.contains f = true) (ht : w.extractTop = some d) :
    _extract_dir w st f
      = (.ok (), { st with compat := addFile st.compat d }, [Ev.extractArchive]) := by
  simp [_extract_dir, scontains_iff.mp hc, ht]

theorem rescue_frame (e : Exc) (st : St) (tb pd : String) :
    ((_get_latest_rescue e st tb pd).2.environPP = st.environPP) ∧
    ((_get_latest_rescue e st tb pd).2.envPP = st.envPP) ∧
    ((_get_latest_rescue e st tb pd).2.umuZenity = st.umuZenity) := by
  cases e
  all_goals simp only [_get_latest_rescue, _cleanup]
  all_goals repeat' split
  all_goals simp

theorem rescue_result (e : Exc) (st : St) (tb pd : String) :
    (_get_latest_rescue e st tb pd).1
      = (if excCaught e then Except.ok none else Except.error e) := by
  cases e <;> rfl
theorem getLatest_ok_umu (w : World) (st st1 : St) (files : List (String × String))
    (hn hu tb tu : String) (tr1 : List Ev)
    (hfiles : files = [(hn, hu), (tb, tu)])
    (hnd : st.compat.contains (protonDirOf tb) = false)
    (hvendor : (st.environPP == some "GE-Proton") = false)
    (hfetch : _fetch_proton w st files = (.ok (), st1, tr1))
    (htmp : st1.tmpFiles.contains tb = true)
    (htop : w.extractTop = some (protonDirOf tb)) :
    _get_latest w st files =
      (.ok (some ()),
       { compat := removeEach (addFile st1.compat (protonDirOf tb))
           (st1.compat.filter (fun n => pyStartsWith n "UMU-Proton" || pyStartsWith n "ULWGL-Proton")),
         aliasTarget := some (protonDirOf tb),
         tmpFiles := removeFile st1.tmpFiles tb,
         environPP := some (compatPath (protonDirOf tb)),
         envPP := some (compatPath (protonDirOf tb)),
         umuZenity := st1.umuZenity },
       tr1 ++ [Ev.extractArchive]) := by
  subst hfiles
  unfold _get_latest
  simp only [List.getD_cons_succ, List.getD_cons_zero, hnd]
  rw [if_neg (by simp), if_neg (by simp [hnd]), hfetch]
  simp only [_get_latest_fin, versionString, hvendor]
  rw [if_pos (by simp)]
  rw [extract_ok w st1 tb (protonDirOf tb) htmp htop]
  simp [_get_latest_post, _update_proton]

theorem getLatest_ok_ge (w : World) (st st1 : St) (files : List (String × String))
    (hn hu tb tu : String) (tr1 : List Ev)
    (hfiles : files = [(hn, hu), (tb, tu)])
    (hnd : st.compat.contains (protonDirOf tb) = false)
    (hvendor : (st.environPP == some "GE-Proton") = true)
    (hfetch : _fetch_proton w st files = (.ok (), st1, tr1))
    (htmp : st1.tmpFiles.contains tb = true)
    (htop : w.extractTop = some (protonDirOf tb)) :
    _get_latest w st files =
      (.ok (some ()),
       { compat := addFile st1.compat (protonDirOf tb),
         aliasTarget := st1.aliasTarget,
         tmpFiles := removeFile st1.tmpFiles tb,
         environPP := some (compatPath (protonDirOf tb)),
         envPP := some (compatPath (protonDirOf tb)),
         umuZenity := st1.umuZenity },
       tr1 ++ [Ev.extractArchive]) := by
  subst hfiles
  unfold _get_latest
  simp only [List.getD_cons_succ, List.getD_cons_zero, hnd]
  rw [if_neg (by simp), if_neg (by simp [hnd]), hfetch]
  simp only [_get_latest_fin, versionString, hvendor]
  rw [if_neg (by simp)]
  rw [extract_ok w st1 tb (protonDirOf tb) htmp htop]
  simp [_get_latest_post]

theorem getLatest_fast (w : World) (st : St) (files : List (String × String))
    (hn hu tb tu : String)
    (hfiles : files = [(hn, hu), (tb, tu)])
    (hc : st.compat.contains (protonDirOf tb) = true) :
    _get_latest w st files =
      (.ok (some ()),
       { st with aliasTarget := some (protonDirOf tb),
                 environPP := some (compatPath (protonDirOf tb)),
                 envPP := some (compatPath (protonDirOf tb)) }, []) := by
  subst hfiles
  unfold _get_latest
  simp only [List.getD_cons_succ, List.getD_cons_zero]
  rw [if_neg (by simp), if_pos hc]

theorem getLatest_err (w : World) (st st1 : St) (files : List (String × String))
    (hn hu tb tu : String) (e : Exc) (tr1 : List Ev)
    (hfiles : files = [(hn, hu), (tb, tu)])
    (hnd : st.compat.contains (protonDirOf tb) = false)
    (hfetch : _fetch_proton w st files = (.error e, st1, tr1)) :
    _get_latest w st files =
      ((_get_latest_rescue e st1 tb (protonDirOf tb)).1,
       (_get_latest_rescue e st1 tb (protonDirOf tb)).2, tr1) := by
  subst hfiles
  unfold _get_latest
  simp only [List.getD_cons_succ, List.getD_cons_zero]
  rw [if_neg (by simp), if_neg (fun h => Bool.noConfusion (h.symm.trans hnd)), hfetch]
  simp only [_get_latest_fin]

theorem fetch_releases_ok (w : World) (hn hu tb tu : String)
    (hurl : w.urlError = false) (hst : w.indexStatus = 200)
    (hcf : collectFiles (firstAssets w.releases) [] = [(hn, hu), (tb, tu)]) :
    _fetch_releases w = (.ok [(hn, hu), (tb, tu)], [Ev.queryIndex]) := by
  simp [_fetch_releases, hurl, hst, hcf]

theorem fr_trace (w : World) : (_fetch_releases w).2 = [Ev.queryIndex] := by
  simp only [_fetch_releases]
  repeat' split
  all_goals rfl

theorem get_umu_after_ok (w : World) (st st1 : St) (files : List (String × String))
    (tr0 tr1 : List Ev)
    (h : _get_latest w st files = (.ok (some ()), st1, tr1)) :
    get_umu_proton_after w st files tr0 = (.ok st1.envPP, st1, tr0 ++ tr1) := by
  unfold get_umu_proton_after
  rw [h]

theorem after_trace (w : World) (st : St) (files : List (String × String)) (tr0 : List Ev) :
    (get_umu_proton_after w st files tr0).2.2 = tr0 ++ (_get_latest w st files).2.2 := by
  unfold get_umu_proton_after
  rcases h : _get_latest w st files with ⟨r, st1, tr1⟩
  rcases r with e | o
  · rfl
  · rcases o with _ | _
    · rcases hsc : _get_from_steamcompat st1 with _ | st2 <;> simp [hsc]
    · rfl

theorem charsLt_iff (as bs : List Char) : charsLt as bs = true ↔ as < bs := by
  induction as generalizing bs with
  | nil =>
    cases bs with
    | nil =>
      simp only [charsLt, Bool.false_eq_true, false_iff]
      intro h
      cases h
    | cons b bs =>
      simp only [charsLt, true_iff]
      exact List.Lex.nil
  | cons a as ih =>
    cases bs with
    | nil =>
      simp only [charsLt, Bool.false_eq_true, false_iff]
      intro h
      cases h
    | cons b bs =>
      simp only [charsLt, Bool.or_eq_true, Bool.and_eq_true, beq_iff_eq, decide_eq_true_eq, ih]
      constructor
      · rintro (h | ⟨he, ht⟩)
        · exact List.Lex.rel h
        · subst he
          exact List.Lex.cons ht
      · intro h
        cases h with
        | cons h3 => exact Or.inr ⟨rfl, h3⟩
        | rel h3 => exact Or.inl h3

theorem stringLt_iff (a b : String) : charsLt a.data b.data = true ↔ a < b := by
  rw [charsLt_iff]
  exact (String.lt_iff_toList_lt).symm

theorem pyMax_spec (x : String) (xs : List String) :
    pyMax (x :: xs) ∈ x :: xs ∧ ∀ y ∈ x :: xs, y ≤ pyMax (x :: xs) := by
  induction xs generalizing x with
  | nil =>
    constructor
    · simp [pyMax]
    · intro y hy
      rcases List.mem_cons.mp hy with h | h
      · subst h; exact le_refl _
      · cases h
  | cons b xs ih =>
    have hstep : pyMax (x :: b :: xs) = pyMax ((if charsLt x.data b.data then b else x) :: xs) := rfl
    have hxb : x ≤ (if charsLt x.data b.data then b else x) := by
      by_cases h : charsLt x.data b.data = true
      · rw [if_pos h]
        exact le_of_lt ((stringLt_iff x b).mp h)
      · rw [if_neg h]
    have hbb : b ≤ (if charsLt x.data b.data then b else x) := by
      by_cases h : charsLt x.data b.data = true
      · rw [if_pos h]
      · rw [if_neg h]
        have : ¬ x < b := fun hlt => h ((stringLt_iff x b).mpr hlt)
        exact le_of_not_lt this
    rcases ih (if charsLt x.data b.data then b else x) with ⟨hmem, hge⟩
    constructor
    · rw [hstep]
      rcases List.mem_cons.mp hmem with h | h
      · rw [h]
        by_cases hc : charsLt x.data b.data = true
        · rw [if_pos hc]; exact List.mem_cons.mpr (Or.inr (List.mem_cons.mpr (Or.inl rfl)))
        · rw [if_neg hc]; exact List.mem_cons.mpr (Or.inl rfl)
      · exact List.mem_cons.mpr (Or.inr (List.mem_cons.mpr (Or.inr h)))
    · intro y hy
      rw [hstep]
      have hhead : (if charsLt x.data b.data then b else x) ≤ pyMax ((if charsLt x.data b.data then b else x) :: xs) :=
        hge _ (List.mem_cons.mpr (Or.inl rfl))
      rcases List.mem_cons.mp hy with h | h
      · subst h
        exact le_trans hxb hhead
      · rcases List.mem_cons.mp h with h2 | h2
        · subst h2
          exact le_trans hbb hhead
        · exact hge _ (List.mem_cons.mpr (Or.inr h2))

theorem fetch_ok_cases (w : World) (st : St) (files : List (String × String))
    (st1 : St) (tr1 : List Ev)
    (h : _fetch_proton w st files = (Except.ok (), st1, tr1)) :
    (st.umuZenity = some "1" ∧ w.zenityRet = 0
        ∧ tr1 = [Ev.fetchDigestFile, Ev.zenityDownload]) ∨
    (st1 = st ∧ tr1 = [Ev.fetchDigestFile]) ∨
    (tr1 = [Ev.fetchDigestFile, Ev.httpDownload, Ev.verifyDigest] ∨
     tr1 = [Ev.fetchDigestFile, Ev.zenityDownload, Ev.httpDownload, Ev.verifyDigest]) := by
  by_cases hz : st.umuZenity = some "1"
  · have hz1 : (st.umuZenity == some "1") = true := by rw [hz]; rfl
    have ht1 : truthy st.umuZenity = true := by rw [hz]; rfl
    by_cases hr : w.zenityRet = 0
    · simp only [_fetch_proton, hz1, ht1, hr, if_true, bne_self_eq_false, Bool.false_eq_true,
        if_false, Bool.not_true, Bool.false_or] at h
      split at h
      · simp at h
      · split at h
        · simp at h
        · simp only [Prod.mk.injEq] at h
          exact Or.inl ⟨hz, hr, h.2.2.symm⟩
    · have hr1 : (w.zenityRet != 0) = true := bne_iff_ne.mpr hr
      simp only [_fetch_proton, hz1, ht1, hr1, if_true, Bool.not_true, Bool.false_or] at h
      split at h
      · simp at h
      · split at h
        · simp at h
        · split at h
          · simp at h
          · split at h
            · simp at h
            · split at h
              · simp at h
              · simp only [Prod.mk.injEq] at h
                exact Or.inr (Or.inr (Or.inr h.2.2.symm))
  · have hz1 : (st.umuZenity == some "1") = false := beq_eq_false_iff_ne.mpr hz
    by_cases ht : truthy st.umuZenity = true
    · simp only [_fetch_proton, hz1, ht, Bool.false_eq_true, if_false, bne_self_eq_false,
        Bool.not_true, Bool.false_or] at h
      split at h
      · simp at h
      · split at h
        · simp at h
        · simp only [Prod.mk.injEq] at h
          exact Or.inr (Or.inl ⟨h.2.1.symm, h.2.2.symm⟩)
    · have ht1 : truthy st.umuZenity = false := by
        cases htt : truthy st.umuZenity
        · rfl
        · exact absurd htt ht
      simp only [_fetch_proton, hz1, ht1, Bool.false_eq_true, if_false, bne_self_eq_false,
        Bool.not_false, Bool.true_or, if_true] at h
      split at h
      · simp at h
      · split at h
        · simp at h
        · split at h
          · simp at h
          · split at h
            · simp at h
            · split at h
              · simp at h
              · simp only [Prod.mk.injEq] at h
                exact Or.inr (Or.inr (Or.inl h.2.2.symm))

/-! ### Concrete fixtures for witnesses and counterexamples -/

/-- The SHA-512 hexdigest of the empty byte payload. -/
def emptySha : String := "cf83e1357eefb8bdf1542850d66d8007d620e4050b5715dc83f4a921d36ce9ce47d0d13c5d85f2b0ff8318d2877eec2f63b931bd47417a81a538327af927da3e"

/-- The same digest written in uppercase. -/
def emptyShaUpper : String := "CF83E1357EEFB8BDF1542850D66D8007D620E4050B5715DC83F4A921D36CE9CE47D0D13C5D85F2B0FF8318D2877EEC2F63B931BD47417A81A538327AF927DA3E"

def sumAsset : Asset := ⟨some "UMU-Proton-9.0-2.sum", some "https://example.com/UMU-Proton-9.0-2.sum"⟩

def tarAsset : Asset := ⟨some "UMU-Proton-9.0-2.tar.gz", some "https://example.com/UMU-Proton-9.0-2.tar.gz"⟩

/-- A well-behaved network: index and downloads succeed, the digest file
matches the (empty) archive payload, the archive extracts to the expected
build directory. -/
def okWorld : World :=
  { urlError := false
    indexStatus := 200
    releases := [[sumAsset, tarAsset]]
    digestStatus := 200
    digestLines := [emptySha ++ "  UMU-Proton-9.0-2.tar.gz"]
    zenityRet := 0
    archiveStatus := 200
    archiveBytes := []
    interrupt := false
    extractTop := some "UMU-Proton-9.0-2" }

/-- A store holding one previous stable build and one GE build, zenity off. -/
def baseSt : St :=
  { compat := ["UMU-Proton-8.0", "GE-Proton8-1"]
    aliasTarget := none
    tmpFiles := []
    environPP := none
    envPP := none
    umuZenity := none }

/-- The same store with helper-mode (zenity) downloads enabled. -/
def zenitySt : St := { baseSt with umuZenity := some "1" }

def geSumAsset : Asset := ⟨some "GE-Proton9-1.sum", some "https://example.com/GE-Proton9-1.sum"⟩

def geTarAsset : Asset := ⟨some "GE-Proton9-1.tar.gz", some "https://example.com/GE-Proton9-1.tar.gz"⟩

/-- The analogous well-behaved network for the GE-Proton vendor. -/
def geWorld : World :=
  { okWorld with
      releases := [[geSumAsset, geTarAsset]]
      digestLines := [emptySha ++ "  GE-Proton9-1.tar.gz"]
      extractTop := some "GE-Proton9-1" }

/-- The base store with the GE-Proton vendor selected. -/
def geSt : St := { baseSt with environPP := some "GE-Proton" }

/-! ### C4 -/

/-- ASCII lowercase normalization of one character (the case normalization
the spec's claim refers to). -/
def lowerChar (c : Char) : Char :=
  if 65 ≤ c.toNat && c.toNat ≤ 90 then Char.ofNat (c.toNat + 32) else c

/-- ASCII lowercase normalization of a string. -/
def lowerStr (s : String) : String := String.mk (s.data.map lowerChar)

/-- C4, amended: the Integrity Verifier accepts exactly when the expected
digest string equals the computed lowercase hexadecimal digest by exact,
case-sensitive string comparison (umu_proton.py:221 compares
`hash.hexdigest() != digest` with no normalization); consequently every
differing digest — differing under case normalization included — is
rejected. -/
theorem c4_verifier_exact_comparison (payload : List Nat) (digest : String) :
    hexdigestMatches payload digest = true ↔ digest = sha512hex payload := by
  unfold hexdigestMatches
  rw [beq_iff_eq]
  exact eq_comm

/-- C4 counterexample: the uppercase rendering of the correct digest of the
empty payload is case-normalized-equal to the computed digest, yet the
verifier rejects it, and `_fetch_proton` raises the digest-mismatch
ValueError on that pair. -/
theorem c4_counterexample :
    lowerStr emptyShaUpper = sha512hex [] ∧
    hexdigestMatches [] emptyShaUpper = false ∧
    (_fetch_proton { okWorld with digestLines := [emptyShaUpper ++ "  UMU-Proton-9.0-2.tar.gz"] }
        baseSt
        [("UMU-Proton-9.0-2.sum", "https://example.com/UMU-Proton-9.0-2.sum"),
         ("UMU-Proton-9.0-2.tar.gz", "https://example.com/UMU-Proton-9.0-2.tar.gz")]).1
      = Except.error (Exc.valueError "Digests mismatched for UMU-Proton-9.0-2.tar.gz") := by
  refine ⟨by decide, by decide, by decide⟩

/-! ### C5 -/

/-- C5, amended: on a 200 index reply `_fetch_releases` fails with the
RuntimeError exactly when the inspected release does not yield two qualifying
assets; a transport-level URLError propagates; but a non-success HTTP status
is returned as an empty files list, not as an error. -/
theorem c5_release_query_errors (w : World) :
    (w.urlError = false → w.indexStatus = 200 →
      ((_fetch_releases w).1 = Except.error (Exc.runtimeError
          "Failed to get complete information for Proton at api.github.com")
        ↔ (collectFiles (firstAssets w.releases) []).length ≠ 2)) ∧
    (w.urlError = false → w.indexStatus ≠ 200 → (_fetch_releases w).1 = Except.ok []) ∧
    (w.urlError = true → (_fetch_releases w).1 = Except.error Exc.urlError) := by
  refine ⟨?_, ?_, ?_⟩
  · intro hu hs
    by_cases hl : (collectFiles (firstAssets w.releases) []).length = 2 <;>
      simp [_fetch_releases, hu, hs, hl]
  · intro hu hs
    simp [_fetch_releases, hu, hs]
  · intro hu
    simp [_fetch_releases, hu]

/-- C5 counterexample: a 404 on the index query makes `_fetch_releases`
return an empty — hence incomplete — asset list instead of failing with the
ReleaseQueryError. -/
theorem c5_counterexample :
    (_fetch_releases { okWorld with indexStatus := 404 }).1 = Except.ok [] := by decide

/-- C5 witness: the three branches of `c5_release_query_errors` at concrete
worlds — an incomplete release (one qualifying asset), a 404 reply, and a
transport failure. -/
theorem c5_witness :
    (_fetch_releases { okWorld with releases := [[sumAsset]] }).1
        = Except.error (Exc.runtimeError
            "Failed to get complete information for Proton at api.github.com") ∧
    (_fetch_releases { okWorld with indexStatus := 404 }).1 = Except.ok [] ∧
    (_fetch_releases { okWorld with urlError := true }).1 = Except.error Exc.urlError := by
  refine ⟨?_, ?_, ?_⟩
  · exact ((c5_release_query_errors _).1 rfl rfl).mpr (by decide)
  · exact (c5_release_query_errors _).2.1 rfl (by decide)
  · exact (c5_release_query_errors _).2.2 rfl

/-! ### C6 -/

/-- C6: with a release listing the archive asset before the digest asset,
`_fetch_releases` succeeds but returns the two qualifying assets in
encounter order (archive, digest), not in (digest, archive) order: the
`if name.endswith("sum")`/`else` branches at umu_proton.py:118-125 append the
identical tuple, while `_fetch_proton` unconditionally unpacks `files[0]` as
the digest file and `files[1]` as the archive. -/
theorem c6_asset_order_not_normalized :
    (_fetch_releases { okWorld with releases := [[tarAsset, sumAsset]] }).1
      = Except.ok
          [("UMU-Proton-9.0-2.tar.gz", "https://example.com/UMU-Proton-9.0-2.tar.gz"),
           ("UMU-Proton-9.0-2.sum", "https://example.com/UMU-Proton-9.0-2.sum")] := by
  decide

/-! ### C9 -/

/-- C9: when some store entries start with the selected vendor's prefix,
`_get_from_steamcompat` publishes (into both `PROTONPATH`s) the path of the
lexicographically maximal such entry; when none do, it returns `none` leaving
the selection empty. -/
theorem c9_fallback_selects_lexicographic_max (st : St) :
    ((st.compat.filter (fun n => pyStartsWith n (versionString st))).isEmpty = true →
        _get_from_steamcompat st = none) ∧
    ((st.compat.filter (fun n => pyStartsWith n (versionString st))).isEmpty = false →
      _get_from_steamcompat st
          = some { st with
              environPP := some (compatPath
                (pyMax (st.compat.filter (fun n => pyStartsWith n (versionString st)))))
              envPP := some (compatPath
                (pyMax (st.compat.filter (fun n => pyStartsWith n (versionString st))))) } ∧
      pyMax (st.compat.filter (fun n => pyStartsWith n (versionString st)))
          ∈ st.compat.filter (fun n => pyStartsWith n (versionString st)) ∧
      ∀ y ∈ st.compat.filter (fun n => pyStartsWith n (versionString st)),
        y ≤ pyMax (st.compat.filter (fun n => pyStartsWith n (versionString st)))) := by
  constructor
  · intro h
    simp [_get_from_steamcompat, h]
  · intro h
    refine ⟨by simp [_get_from_steamcompat, h], ?_, ?_⟩
    · rcases hl : st.compat.filter (fun n => pyStartsWith n (versionString st)) with _ | ⟨x, xs⟩
      · rw [hl] at h
        cases h
      · exact (pyMax_spec x xs).1
    · rcases hl : st.compat.filter (fun n => pyStartsWith n (versionString st)) with _ | ⟨x, xs⟩
      · rw [hl] at h
        cases h
      · exact (pyMax_spec x xs).2

/-- C9 witness: on the spec's example store the fallback selects
`UMU-Proton-9.0` and publishes its path. -/
theorem c9_witness :
    _get_from_steamcompat { baseSt with compat := ["UMU-Proton-7.0", "UMU-Proton-8.1", "UMU-Proton-9.0"] }
      = some { baseSt with
          compat := ["UMU-Proton-7.0", "UMU-Proton-8.1", "UMU-Proton-9.0"]
          environPP := some (compatPath "UMU-Proton-9.0")
          envPP := some (compatPath "UMU-Proton-9.0") } := by
  have h := (c9_fallback_selects_lexicographic_max
    { baseSt with compat := ["UMU-Proton-7.0", "UMU-Proton-8.1", "UMU-Proton-9.0"] }).2 (by decide)
  rw [h.1]
  decide

/-! ### C3 -/

/-- C3, amended: the `except` clauses of the update attempt catch exactly
three exception classes — ValueError, KeyboardInterrupt, HTTPException — and
downgrade them to a "no update" result, every other exception propagating
unchanged; a fetch failure inside `_get_latest` is routed through those
clauses; and the scheme check raises a plain ValueError, so a non-https URL
is downgraded like a digest mismatch instead of propagating as a distinct
hard failure. -/
theorem c3_exactly_three_downgraded :
    (∀ (e : Exc) (st : St) (tb pd : String),
      ((_get_latest_rescue e st tb pd).1 = Except.ok none ↔ excCaught e = true) ∧
      (excCaught e = false → (_get_latest_rescue e st tb pd).1 = Except.error e)) ∧
    (∀ (w : World) (st st1 : St) (files : List (String × String)) (hn hu tb tu : String)
        (e : Exc) (tr1 : List Ev),
      files = [(hn, hu), (tb, tu)] →
      st.compat.contains (protonDirOf tb) = false →
      _fetch_proton w st files = (.error e, st1, tr1) →
      (_get_latest w st files).1 = (_get_latest_rescue e st1 tb (protonDirOf tb)).1) ∧
    (∀ (w : World) (st : St) (files : List (String × String)),
      (pyStartsWith (files.getD 1 ("", "")).2 "https:" = false ∨
       pyStartsWith (files.getD 0 ("", "")).2 "https:" = false) →
      (_fetch_proton w st files).1
        = Except.error (Exc.valueError "Scheme in URLs is not https:")) := by
  refine ⟨?_, ?_, ?_⟩
  · intro e st tb pd
    constructor
    · rw [rescue_result]
      cases he : excCaught e <;> simp
    · intro h
      rw [rescue_result, h]
      simp
  · intro w st st1 files hn hu tb tu e tr1 hfiles hnd hfetch
    rw [getLatest_err w st st1 files hn hu tb tu e tr1 hfiles hnd hfetch]
  · intro w st files h
    simp only [_fetch_proton]
    rcases h with h | h <;> rw [h] <;> simp

/-- C3 counterexample: with an archive URL using the `http:` scheme, the
scheme error raised by `_fetch_proton` is a ValueError, and `_get_latest`
returns the downgraded "no update" result `Except.ok none` instead of
propagating a hard failure to the caller. -/
theorem c3_counterexample :
    (_fetch_proton okWorld baseSt
        [("UMU-Proton-9.0-2.sum", "https://example.com/UMU-Proton-9.0-2.sum"),
         ("UMU-Proton-9.0-2.tar.gz", "http://example.com/UMU-Proton-9.0-2.tar.gz")]).1
      = Except.error (Exc.valueError "Scheme in URLs is not https:") ∧
    (_get_latest okWorld baseSt
        [("UMU-Proton-9.0-2.sum", "https://example.com/UMU-Proton-9.0-2.sum"),
         ("UMU-Proton-9.0-2.tar.gz", "http://example.com/UMU-Proton-9.0-2.tar.gz")]).1
      = Except.ok none := by
  refine ⟨by decide, by decide⟩

/-- C3 witness: the theorem applied at concrete inputs — an interrupt is
downgraded, a tarfile read error propagates unchanged, the interrupt raised
during a concrete download is routed through the except clauses, and a
non-https URL raises the ValueError. -/
theorem c3_witness :
    (_get_latest_rescue Exc.keyboardInterrupt baseSt "UMU-Proton-9.0-2.tar.gz"
        "UMU-Proton-9.0-2").1 = Except.ok none ∧
    (_get_latest_rescue (Exc.tarError "ReadError") baseSt "UMU-Proton-9.0-2.tar.gz"
        "UMU-Proton-9.0-2").1 = Except.error (Exc.tarError "ReadError") ∧
    (_get_latest { okWorld with interrupt := true } baseSt
        [("UMU-Proton-9.0-2.sum", "https://example.com/UMU-Proton-9.0-2.sum"),
         ("UMU-Proton-9.0-2.tar.gz", "https://example.com/UMU-Proton-9.0-2.tar.gz")]).1
      = (_get_latest_rescue Exc.keyboardInterrupt
          { baseSt with tmpFiles := ["UMU-Proton-9.0-2.tar.gz"] }
          "UMU-Proton-9.0-2.tar.gz" (protonDirOf "UMU-Proton-9.0-2.tar.gz")).1 ∧
    (_fetch_proton okWorld baseSt
        [("UMU-Proton-9.0-2.sum", "https://example.com/UMU-Proton-9.0-2.sum"),
         ("UMU-Proton-9.0-2.tar.gz", "http://example.com/UMU-Proton-9.0-2.tar.gz")]).1
      = Except.error (Exc.valueError "Scheme in URLs is not https:") := by
  refine ⟨?_, ?_, ?_, ?_⟩
  · exact (c3_exactly_three_downgraded.1 Exc.keyboardInterrupt baseSt
      "UMU-Proton-9.0-2.tar.gz" "UMU-Proton-9.0-2").1.mpr rfl
  · exact (c3_exactly_three_downgraded.1 (Exc.tarError "ReadError") baseSt
      "UMU-Proton-9.0-2.tar.gz" "UMU-Proton-9.0-2").2 rfl
  · exact c3_exactly_three_downgraded.2.1 { okWorld with interrupt := true } baseSt
      { baseSt with tmpFiles := ["UMU-Proton-9.0-2.tar.gz"] }
      _ "UMU-Proton-9.0-2.sum" "https://example.com/UMU-Proton-9.0-2.sum"
      "UMU-Proton-9.0-2.tar.gz" "https://example.com/UMU-Proton-9.0-2.tar.gz"
      Exc.keyboardInterrupt [Ev.fetchDigestFile, Ev.httpDownload]
      rfl (by decide) (by decide)
  · exact c3_exactly_three_downgraded.2.2 okWorld baseSt _ (Or.inl (by decide))

/-! ### C1 -/

/-- The seven possible event traces of `_fetch_proton`; none of them
contains an extraction event. -/
theorem fetch_tr_cases (w : World) (st : St) (files : List (String × String)) :
    (_fetch_proton w st files).2.2 = [] ∨
    (_fetch_proton w st files).2.2 = [Ev.fetchDigestFile] ∨
    (_fetch_proton w st files).2.2 = [Ev.fetchDigestFile, Ev.zenityDownload] ∨
    (_fetch_proton w st files).2.2 = [Ev.fetchDigestFile, Ev.httpDownload] ∨
    (_fetch_proton w st files).2.2 = [Ev.fetchDigestFile, Ev.zenityDownload, Ev.httpDownload] ∨
    (_fetch_proton w st files).2.2 = [Ev.fetchDigestFile, Ev.httpDownload, Ev.verifyDigest] ∨
    (_fetch_proton w st files).2.2
      = [Ev.fetchDigestFile, Ev.zenityDownload, Ev.httpDownload, Ev.verifyDigest] := by
  simp only [_fetch_proton]
  repeat' split
  all_goals simp

theorem extract_shapes (w : World) (st : St) (f : String) :
    ((∃ e, (_extract_dir w st f).1 = Except.error e) ∧ (_extract_dir w st f).2.2 = []) ∨
    ((_extract_dir w st f).1 = Except.ok () ∧ (_extract_dir w st f).2.2 = [Ev.extractArchive]) := by
  unfold _extract_dir
  repeat' split
  all_goals simp

theorem extract_missing (w : World) (st : St) (f : String)
    (h : st.tmpFiles.contains f = false) :
    _extract_dir w st f = (Except.error (Exc.osError "FileNotFoundError"), st, []) := by
  unfold _extract_dir
  rw [h]
  simp

theorem getLatest_vbe (w : World) (st : St) (files : List (String × String))
    (htmp : st.tmpFiles = [])
    (hz : st.umuZenity = some "1" → w.zenityRet ≠ 0) :
    verifiedBeforeExtract false (_get_latest w st files).2.2 = true := by
  unfold _get_latest
  split
  · rfl
  · dsimp only
    split
    · rfl
    · rcases hf : _fetch_proton w st files with ⟨r, st1, tr1⟩
      have htr := fetch_tr_cases w st files
      rw [hf] at htr
      simp only at htr
      rcases r with e | u
      · -- fetch failed: the trace is tr1, extraction never happened
        simp only [_get_latest_fin]
        rcases htr with h | h | h | h | h | h | h <;> rw [h] <;> rfl
      · -- fetch succeeded
        rcases fetch_ok_cases w st files st1 tr1 hf with hcase | hcase | hcase
        · exact absurd hcase.2.1 (hz hcase.1)
        · -- zenity configured but not "1": no file was downloaded, extraction fails
          rcases hcase with ⟨hst, htr1⟩
          have hmiss : st1.tmpFiles.contains ((files.getD 1 ("", "")).1) = false := by
            rw [hst, htmp]
            rfl
          simp only [_get_latest_fin]
          split
          · rw [extract_missing w st1 _ hmiss]
            simp only [_get_latest_post, _get_latest_rescue]
            rw [htr1]
            rfl
          · rw [extract_missing w st1 _ hmiss]
            simp only [_get_latest_post, _get_latest_rescue]
            rw [htr1]
            rfl
        · -- built-in download ran: the trace ends with a verification
          have hvbe1 : verifiedBeforeExtract false (tr1 ++ [Ev.extractArchive]) = true := by
            rcases hcase with h | h <;> rw [h] <;> rfl
          have hvbe2 : verifiedBeforeExtract false (tr1 ++ []) = true := by
            rcases hcase with h | h <;> rw [h] <;> rfl
          simp only [_get_latest_fin]
          split
          · rcases he : _extract_dir w st1 ((files.getD 1 ("", "")).1) with ⟨re, st2, tr2⟩
            have hex := extract_shapes w st1 ((files.getD 1 ("", "")).1)
            rw [he] at hex
            simp only at hex
            rcases re with e2 | u2
            · rcases hex with ⟨_, h2⟩ | ⟨h1, _⟩
              · simp only [_get_latest_post]
                rw [h2, hvbe2]
              · simp at h1
            · rcases hex with ⟨⟨e3, h1⟩, _⟩ | ⟨_, h2⟩
              · simp at h1
              · simp only [_get_latest_post]
                rw [h2, hvbe1]
          · rcases he : _extract_dir w st1 ((files.getD 1 ("", "")).1) with ⟨re, st2, tr2⟩
            have hex := extract_shapes w st1 ((files.getD 1 ("", "")).1)
            rw [he] at hex
            simp only at hex
            rcases re with e2 | u2
            · rcases hex with ⟨_, h2⟩ | ⟨h1, _⟩
              · simp only [_get_latest_post]
                rw [h2, hvbe2]
              · simp at h1
            · rcases hex with ⟨⟨e3, h1⟩, _⟩ | ⟨_, h2⟩
              · simp at h1
              · simp only [_get_latest_post]
                rw [h2, hvbe1]

theorem get_trace (w : World) (st : St) :
    (get_umu_proton w st).2.2 = [Ev.queryIndex] ∨
    ∃ files, (get_umu_proton w st).2.2
      = Ev.queryIndex :: (_get_latest w { st with tmpFiles := [] } files).2.2 := by
  unfold get_umu_proton
  rcases hf : _fetch_releases w with ⟨r, tr0⟩
  have htr0 := fr_trace w
  rw [hf] at htr0
  simp only at htr0
  subst htr0
  rcases r with e | files
  · cases e
    case urlError =>
      right
      exact ⟨[], by rw [after_trace]; rfl⟩
    all_goals exact Or.inl rfl
  · right
    exact ⟨files, by rw [after_trace]; rfl⟩

/-- C1, amended: on every pipeline run in which the helper-mode (zenity)
download does not succeed — zenity disabled, or enabled with a non-zero exit
so that the built-in downloader takes over — integrity verification strictly
precedes any extraction of the archive; but on a successful helper-mode
download the archive is extracted without any digest verification. -/
theorem c1_verify_precedes_extract (w : World) (st : St)
    (hz : st.umuZenity = some "1" → w.zenityRet ≠ 0) :
    verifiedBeforeExtract false (get_umu_proton w st).2.2 = true := by
  rcases get_trace w st with h | ⟨files, h⟩
  · rw [h]
    rfl
  · rw [h]
    show verifiedBeforeExtract false ((_get_latest w { st with tmpFiles := [] } files).2.2) = true
    exact getLatest_vbe w { st with tmpFiles := [] } files rfl hz

/-- C1 counterexample: with helper-mode downloads enabled
(`UMU_ZENITY = "1"`) and the zenity helper exiting successfully, the pipeline
extracts the downloaded archive without any digest verification: the run's
trace contains an extraction event but fails the
verification-before-extraction scan. -/
theorem c1_counterexample :
    Ev.extractArchive ∈ (get_umu_proton okWorld zenitySt).2.2 ∧
    verifiedBeforeExtract false (get_umu_proton okWorld zenitySt).2.2 = false := by
  refine ⟨by decide, by decide⟩

/-- C1 witness: the amended theorem at the concrete well-behaved world with
zenity disabled. -/
theorem c1_witness :
    verifiedBeforeExtract false (get_umu_proton okWorld baseSt).2.2 = true :=
  c1_verify_precedes_extract okWorld baseSt (by decide)

/-! ### C2 and C8 -/

/-- Concrete files list for the UMU-Proton vendor fixtures. -/
def umuFiles : List (String × String) :=
  [("UMU-Proton-9.0-2.sum", "https://example.com/UMU-Proton-9.0-2.sum"),
   ("UMU-Proton-9.0-2.tar.gz", "https://example.com/UMU-Proton-9.0-2.tar.gz")]

/-- Concrete files list for the GE-Proton vendor fixtures. -/
def geFiles : List (String × String) :=
  [("GE-Proton9-1.sum", "https://example.com/GE-Proton9-1.sum"),
   ("GE-Proton9-1.tar.gz", "https://example.com/GE-Proton9-1.tar.gz")]

/-- C2, amended: after a successful update (fetch succeeded, staging archive
present, archive extracting to the directory named by the archive name with
its `.tar.gz` suffix stripped), the staging archive is deleted and the new
build directory is in the store for both vendors, and its name equals the
archive name minus `.tar.gz`; but only for the UMU-Proton vendor does the
`UMU-Latest` alias get relinked to the new build — on the GE-Proton download
path the alias is left unchanged. -/
theorem c2_alias_and_cleanup (w : World) (st st1 : St) (files : List (String × String))
    (hn hu tb tu : String) (tr1 : List Ev)
    (hfiles : files = [(hn, hu), (tb, tu)])
    (hnd : st.compat.contains (protonDirOf tb) = false)
    (hfetch : _fetch_proton w st files = (.ok (), st1, tr1))
    (htmp : st1.tmpFiles.contains tb = true)
    (htop : w.extractTop = some (protonDirOf tb))
    (hfind : strFind tb ".tar.gz" = some (tb.length - 7)) :
    ((st.environPP == some "GE-Proton") = false →
      ((_get_latest w st files).1 = Except.ok (some ()) ∧
       (_get_latest w st files).2.1.aliasTarget = some (tb.take (tb.length - 7)) ∧
       (tb.take (tb.length - 7)) ∈ (_get_latest w st files).2.1.compat ∧
       (_get_latest w st files).2.1.tmpFiles.contains tb = false)) ∧
    ((st.environPP == some "GE-Proton") = true →
      ((_get_latest w st files).1 = Except.ok (some ()) ∧
       (_get_latest w st files).2.1.aliasTarget = st.aliasTarget ∧
       (tb.take (tb.length - 7)) ∈ (_get_latest w st files).2.1.compat ∧
       (_get_latest w st files).2.1.tmpFiles.contains tb = false)) := by
  have hpd : protonDirOf tb = tb.take (tb.length - 7) := by
    unfold protonDirOf
    rw [hfind]
  have hframe := fetch_frame w st files
  rw [hfetch] at hframe
  simp only at hframe
  have hpmem : protonDirOf tb ∉ st.compat := by
    intro hm
    rw [scontains_iff.mpr hm] at hnd
    exact Bool.noConfusion hnd
  constructor
  · intro hv
    rw [getLatest_ok_umu w st st1 files hn hu tb tu tr1 hfiles hnd hv hfetch htmp htop]
    refine ⟨rfl, by rw [hpd], ?_, removeFile_contains_self _ _⟩
    rw [← hpd]
    apply mem_removeEach.mpr
    refine ⟨mem_addFile.mpr (Or.inr rfl), ?_⟩
    intro hmem
    exact hpmem (hframe.1 ▸ (List.mem_filter.mp hmem).1)
  · intro hv
    rw [getLatest_ok_ge w st st1 files hn hu tb tu tr1 hfiles hnd hv hfetch htmp htop]
    refine ⟨rfl, hframe.2.1, ?_, removeFile_contains_self _ _⟩
    rw [← hpd]
    exact mem_addFile.mpr (Or.inr rfl)

/-- C2 counterexample: a fully successful GE-Proton update (download,
verification and extraction all succeed) leaves the `UMU-Latest` alias
unchanged (here: absent) instead of pointing it at the newly extracted build
directory `GE-Proton9-1`. -/
theorem c2_counterexample :
    (_get_latest geWorld geSt geFiles).1 = Except.ok (some ()) ∧
    "GE-Proton9-1" ∈ (_get_latest geWorld geSt geFiles).2.1.compat ∧
    (_get_latest geWorld geSt geFiles).2.1.aliasTarget = none := by
  refine ⟨by decide, by decide, by decide⟩

/-- C2 witness: the amended theorem applied to a concrete successful
UMU-Proton update and a concrete successful GE-Proton update (both via the
helper-mode download). -/
theorem c2_witness :
    ((_get_latest okWorld zenitySt umuFiles).1 = Except.ok (some ()) ∧
     (_get_latest okWorld zenitySt umuFiles).2.1.aliasTarget
        = some ("UMU-Proton-9.0-2.tar.gz".take ("UMU-Proton-9.0-2.tar.gz".length - 7)) ∧
     ("UMU-Proton-9.0-2.tar.gz".take ("UMU-Proton-9.0-2.tar.gz".length - 7))
        ∈ (_get_latest okWorld zenitySt umuFiles).2.1.compat ∧
     (_get_latest okWorld zenitySt umuFiles).2.1.tmpFiles.contains
        "UMU-Proton-9.0-2.tar.gz" = false) ∧
    ((_get_latest geWorld { geSt with umuZenity := some "1" } geFiles).1 = Except.ok (some ()) ∧
     (_get_latest geWorld { geSt with umuZenity := some "1" } geFiles).2.1.aliasTarget = none ∧
     ("GE-Proton9-1.tar.gz".take ("GE-Proton9-1.tar.gz".length - 7))
        ∈ (_get_latest geWorld { geSt with umuZenity := some "1" } geFiles).2.1.compat ∧
     (_get_latest geWorld { geSt with umuZenity := some "1" } geFiles).2.1.tmpFiles.contains
        "GE-Proton9-1.tar.gz" = false) := by
  constructor
  · exact (c2_alias_and_cleanup okWorld zenitySt
      { zenitySt with tmpFiles := ["UMU-Proton-9.0-2.tar.gz"] } umuFiles
      "UMU-Proton-9.0-2.sum" "https://example.com/UMU-Proton-9.0-2.sum"
      "UMU-Proton-9.0-2.tar.gz" "https://example.com/UMU-Proton-9.0-2.tar.gz"
      [Ev.fetchDigestFile, Ev.zenityDownload]
      rfl (by decide) (by decide) (by decide) (by decide) (by decide)).1 (by decide)
  · exact (c2_alias_and_cleanup geWorld { geSt with umuZenity := some "1" }
      { geSt with umuZenity := some "1", tmpFiles := ["GE-Proton9-1.tar.gz"] } geFiles
      "GE-Proton9-1.sum" "https://example.com/GE-Proton9-1.sum"
      "GE-Proton9-1.tar.gz" "https://example.com/GE-Proton9-1.tar.gz"
      [Ev.fetchDigestFile, Ev.zenityDownload]
      rfl (by decide) (by decide) (by decide) (by decide) (by decide)).2 (by decide)

/-- C8: after a successful update, for the prunable vendor (UMU-Proton) the
only store directory whose name starts with the legacy or current prefix
(`ULWGL-Proton` or `UMU-Proton`) is the newly installed build, every
non-matching pre-existing directory being preserved; for the non-prunable
vendor (GE-Proton) the store is exactly the old store plus the new build, so
every pre-existing build directory is left unchanged. -/
theorem c8_stale_build_retirement (w : World) (st st1 : St) (files : List (String × String))
    (hn hu tb tu : String) (tr1 : List Ev)
    (hfiles : files = [(hn, hu), (tb, tu)])
    (hnd : st.compat.contains (protonDirOf tb) = false)
    (hfetch : _fetch_proton w st files = (.ok (), st1, tr1))
    (htmp : st1.tmpFiles.contains tb = true)
    (htop : w.extractTop = some (protonDirOf tb)) :
    ((st.environPP == some "GE-Proton") = false →
      ((∀ n ∈ (_get_latest w st files).2.1.compat,
          (pyStartsWith n "UMU-Proton" || pyStartsWith n "ULWGL-Proton") = true →
          n = protonDirOf tb) ∧
       protonDirOf tb ∈ (_get_latest w st files).2.1.compat ∧
       (∀ n ∈ st.compat,
          (pyStartsWith n "UMU-Proton" || pyStartsWith n "ULWGL-Proton") = false →
          n ∈ (_get_latest w st files).2.1.compat))) ∧
    ((st.environPP == some "GE-Proton") = true →
      (_get_latest w st files).2.1.compat = st.compat ++ [protonDirOf tb]) := by
  have hframe := fetch_frame w st files
  rw [hfetch] at hframe
  simp only at hframe
  have hpmem : protonDirOf tb ∉ st.compat := by
    intro hm
    rw [scontains_iff.mpr hm] at hnd
    exact Bool.noConfusion hnd
  constructor
  · intro hv
    rw [getLatest_ok_umu w st st1 files hn hu tb tu tr1 hfiles hnd hv hfetch htmp htop]
    refine ⟨?_, ?_, ?_⟩
    · intro n hmem hpre
      rcases mem_removeEach.mp hmem with ⟨hadd, hnot⟩
      rcases mem_addFile.mp hadd with hin | heq
      · exact absurd (List.mem_filter.mpr ⟨hin, hpre⟩) hnot
      · exact heq
    · apply mem_removeEach.mpr
      refine ⟨mem_addFile.mpr (Or.inr rfl), ?_⟩
      intro hmem
      exact hpmem (hframe.1 ▸ (List.mem_filter.mp hmem).1)
    · intro n hmem hpre
      apply mem_removeEach.mpr
      refine ⟨mem_addFile.mpr (Or.inl (hframe.1.symm ▸ hmem)), ?_⟩
      intro hf
      rw [(List.mem_filter.mp hf).2] at hpre
      exact Bool.noConfusion hpre
  · intro hv
    rw [getLatest_ok_ge w st st1 files hn hu tb tu tr1 hfiles hnd hv hfetch htmp htop]
    rw [hframe.1, addFile_of_not_contains st.compat (protonDirOf tb) hnd]

/-- C8 witness: the theorem applied to a concrete successful UMU-Proton
update over a store holding a previous stable build and a GE build (only the
old stable build is retired), and to a concrete successful GE-Proton update
(the store is exactly extended). -/
theorem c8_witness :
    ((∀ n ∈ (_get_latest okWorld zenitySt umuFiles).2.1.compat,
        (pyStartsWith n "UMU-Proton" || pyStartsWith n "ULWGL-Proton") = true →
        n = protonDirOf "UMU-Proton-9.0-2.tar.gz") ∧
     protonDirOf "UMU-Proton-9.0-2.tar.gz" ∈ (_get_latest okWorld zenitySt umuFiles).2.1.compat ∧
     (∀ n ∈ zenitySt.compat,
        (pyStartsWith n "UMU-Proton" || pyStartsWith n "ULWGL-Proton") = false →
        n ∈ (_get_latest okWorld zenitySt umuFiles).2.1.compat)) ∧
    (_get_latest geWorld { geSt with umuZenity := some "1" } geFiles).2.1.compat
      = ({ geSt with umuZenity := some "1" } : St).compat ++ [protonDirOf "GE-Proton9-1.tar.gz"] := by
  constructor
  · exact (c8_stale_build_retirement okWorld zenitySt
      { zenitySt with tmpFiles := ["UMU-Proton-9.0-2.tar.gz"] } umuFiles
      "UMU-Proton-9.0-2.sum" "https://example.com/UMU-Proton-9.0-2.sum"
      "UMU-Proton-9.0-2.tar.gz" "https://example.com/UMU-Proton-9.0-2.tar.gz"
      [Ev.fetchDigestFile, Ev.zenityDownload]
      rfl (by decide) (by decide) (by decide) (by decide)).1 (by decide)
  · exact (c8_stale_build_retirement geWorld { geSt with umuZenity := some "1" }
      { geSt with umuZenity := some "1", tmpFiles := ["GE-Proton9-1.tar.gz"] } geFiles
      "GE-Proton9-1.sum" "https://example.com/GE-Proton9-1.sum"
      "GE-Proton9-1.tar.gz" "https://example.com/GE-Proton9-1.tar.gz"
      [Ev.fetchDigestFile, Ev.zenityDownload]
      rfl (by decide) (by decide) (by decide) (by decide)).2 (by decide)

/-! ### C7 -/

theorem get_umu_eq_after (w : World) (st : St) (files : List (String × String))
    (hfr : _fetch_releases w = (.ok files, [Ev.queryIndex])) :
    get_umu_proton w st
      = get_umu_proton_after w { st with tmpFiles := [] } files [Ev.queryIndex] := by
  unfold get_umu_proton
  rw [hfr]

/-- C7, amended: after one successful invocation over the built-in download
path, a second invocation with the same release listing takes the up-to-date
fast path: it performs no download, no verification and no extraction — its
whole event trace is the one release-index query, which is a network call the
original claim wrongly excludes — republishes the `UMU-Latest` alias to the
existing build, and returns the same runtime selection as the first
invocation. -/
theorem c7_second_run_fast_path (w : World) (st : St)
    (hn hu tb tu : String)
    (hurl : w.urlError = false) (hidx : w.indexStatus = 200)
    (hcf : collectFiles (firstAssets w.releases) [] = [(hn, hu), (tb, tu)])
    (hhu : pyStartsWith hu "https:" = true) (htu : pyStartsWith tu "https:" = true)
    (hvendor : (st.environPP == some "GE-Proton") = false)
    (hnd : st.compat.contains (protonDirOf tb) = false)
    (hz : st.umuZenity = none)
    (hds : w.digestStatus = 200) (has : w.archiveStatus = 200) (hint : w.interrupt = false)
    (hdig : sha512hex w.archiveBytes = parseDigest w.digestLines tb)
    (htop : w.extractTop = some (protonDirOf tb)) :
    (get_umu_proton w st).1 = Except.ok (some (compatPath (protonDirOf tb))) ∧
    (get_umu_proton w (get_umu_proton w st).2.1).1
      = Except.ok (some (compatPath (protonDirOf tb))) ∧
    (get_umu_proton w (get_umu_proton w st).2.1).2.2 = [Ev.queryIndex] ∧
    (get_umu_proton w (get_umu_proton w st).2.1).2.1.aliasTarget = some (protonDirOf tb) ∧
    (get_umu_proton w (get_umu_proton w st).2.1).2.1.envPP = (get_umu_proton w st).2.1.envPP := by
  have hfr := fetch_releases_ok w hn hu tb tu hurl hidx hcf
  have hfetch1 := fetch_builtin_ok w { st with tmpFiles := [] } [(hn, hu), (tb, tu)]
    hn hu tb tu rfl hhu htu hz hds has hint hdig
  have hgl1 := getLatest_ok_umu w { st with tmpFiles := [] } _ [(hn, hu), (tb, tu)]
    hn hu tb tu _ rfl hnd hvendor hfetch1 (show (addFile ([] : List String) tb).contains tb = true from addFile_contains_self _ _) htop
  have hrun1 : get_umu_proton w st
      = (Except.ok (some (compatPath (protonDirOf tb))),
         { compat := removeEach (addFile st.compat (protonDirOf tb))
             (st.compat.filter
               (fun n => pyStartsWith n "UMU-Proton" || pyStartsWith n "ULWGL-Proton")),
           aliasTarget := some (protonDirOf tb),
           tmpFiles := removeFile (addFile ([] : List String) tb) tb,
           environPP := some (compatPath (protonDirOf tb)),
           envPP := some (compatPath (protonDirOf tb)),
           umuZenity := st.umuZenity },
         [Ev.queryIndex, Ev.fetchDigestFile, Ev.httpDownload, Ev.verifyDigest,
          Ev.extractArchive]) := by
    rw [get_umu_eq_after w st _ hfr, get_umu_after_ok _ _ _ _ _ _ hgl1]
    rfl
  have hpmem : protonDirOf tb ∉ st.compat := by
    intro hm
    rw [scontains_iff.mpr hm] at hnd
    exact Bool.noConfusion hnd
  have hcont2 : (removeEach (addFile st.compat (protonDirOf tb))
      (st.compat.filter
        (fun n => pyStartsWith n "UMU-Proton" || pyStartsWith n "ULWGL-Proton"))).contains
      (protonDirOf tb) = true := by
    apply scontains_iff.mpr
    apply mem_removeEach.mpr
    refine ⟨mem_addFile.mpr (Or.inr rfl), ?_⟩
    intro hf
    exact hpmem (List.mem_filter.mp hf).1
  have hgl2 := getLatest_fast w
    { compat := removeEach (addFile st.compat (protonDirOf tb))
        (st.compat.filter
          (fun n => pyStartsWith n "UMU-Proton" || pyStartsWith n "ULWGL-Proton")),
      aliasTarget := some (protonDirOf tb),
      tmpFiles := [],
      environPP := some (compatPath (protonDirOf tb)),
      envPP := some (compatPath (protonDirOf tb)),
      umuZenity := st.umuZenity }
    [(hn, hu), (tb, tu)] hn hu tb tu rfl hcont2
  have hrun2 : get_umu_proton w
      { compat := removeEach (addFile st.compat (protonDirOf tb))
          (st.compat.filter
            (fun n => pyStartsWith n "UMU-Proton" || pyStartsWith n "ULWGL-Proton")),
        aliasTarget := some (protonDirOf tb),
        tmpFiles := removeFile (addFile ([] : List String) tb) tb,
        environPP := some (compatPath (protonDirOf tb)),
        envPP := some (compatPath (protonDirOf tb)),
        umuZenity := st.umuZenity }
      = (Except.ok (some (compatPath (protonDirOf tb))),
         { compat := removeEach (addFile st.compat (protonDirOf tb))
             (st.compat.filter
               (fun n => pyStartsWith n "UMU-Proton" || pyStartsWith n "ULWGL-Proton")),
           aliasTarget := some (protonDirOf tb),
           tmpFiles := [],
           environPP := some (compatPath (protonDirOf tb)),
           envPP := some (compatPath (protonDirOf tb)),
           umuZenity := st.umuZenity },
         [Ev.queryIndex]) := by
    rw [get_umu_eq_after _ _ _ hfr, get_umu_after_ok _ _ _ _ _ _ hgl2]
    rfl
  rw [hrun1]
  exact ⟨rfl, by rw [hrun2], by rw [hrun2], by rw [hrun2], by rw [hrun2]⟩

/-- C7 counterexample: after a successful first invocation, the second
invocation still performs the release-index network query — its trace is
exactly the query event — contradicting the claim that no network call
occurs on the up-to-date fast path. -/
theorem c7_counterexample :
    (get_umu_proton okWorld zenitySt).1
      = Except.ok (some (compatPath "UMU-Proton-9.0-2")) ∧
    (get_umu_proton okWorld (get_umu_proton okWorld zenitySt).2.1).2.2 = [Ev.queryIndex] ∧
    Ev.queryIndex ∈ (get_umu_proton okWorld (get_umu_proton okWorld zenitySt).2.1).2.2 := by
  refine ⟨by decide, by decide, by decide⟩

/-- C7 witness: the amended theorem at the concrete well-behaved world. -/
theorem c7_witness :
    (get_umu_proton okWorld baseSt).1
      = Except.ok (some (compatPath (protonDirOf "UMU-Proton-9.0-2.tar.gz"))) ∧
    (get_umu_proton okWorld (get_umu_proton okWorld baseSt).2.1).1
      = Except.ok (some (compatPath (protonDirOf "UMU-Proton-9.0-2.tar.gz"))) ∧
    (get_umu_proton okWorld (get_umu_proton okWorld baseSt).2.1).2.2 = [Ev.queryIndex] ∧
    (get_umu_proton okWorld (get_umu_proton okWorld baseSt).2.1).2.1.aliasTarget
      = some (protonDirOf "UMU-Proton-9.0-2.tar.gz") ∧
    (get_umu_proton okWorld (get_umu_proton okWorld baseSt).2.1).2.1.envPP
      = (get_umu_proton okWorld baseSt).2.1.envPP :=
  c7_second_run_fast_path okWorld baseSt
    "UMU-Proton-9.0-2.sum" "https://example.com/UMU-Proton-9.0-2.sum"
    "UMU-Proton-9.0-2.tar.gz" "https://example.com/UMU-Proton-9.0-2.tar.gz"
    rfl rfl (by decide) (by decide) (by decide) (by decide) (by decide) rfl rfl rfl rfl
    (by decide) (by decide)

/-! ### C10 -/

theorem extract_frame (w : World) (st : St) (f : String) :
    ((_extract_dir w st f).2.1.environPP = st.environPP) ∧
    ((_extract_dir w st f).2.1.envPP = st.envPP) := by
  unfold _extract_dir
  repeat' split
  all_goals simp

theorem getLatest_shapes (w : World) (st : St) (files : List (String × String)) :
    ((_get_latest w st files).2.1.environPP = st.environPP ∧
     (_get_latest w st files).2.1.envPP = st.envPP ∧
     ((_get_latest w st files).1 = Except.ok none ∨
      ∃ e, (_get_latest w st files).1 = Except.error e)) ∨
    (∃ name, (_get_latest w st files).1 = Except.ok (some ()) ∧
      (_get_latest w st files).2.1.environPP = some (compatPath name) ∧
      (_get_latest w st files).2.1.envPP = some (compatPath name)) := by
  unfold _get_latest
  split
  · exact Or.inl ⟨rfl, rfl, Or.inl rfl⟩
  · dsimp only
    split
    · exact Or.inr ⟨_, rfl, rfl, rfl⟩
    · rcases hf : _fetch_proton w st files with ⟨r, st1, tr1⟩
      have hframe := fetch_frame w st files
      rw [hf] at hframe
      simp only at hframe
      rcases r with e | u
      · simp only [_get_latest_fin]
        have hr := rescue_result e st1 ((files.getD 1 ("", "")).1)
          (protonDirOf (files.getD 1 ("", "")).1)
        have hrf := rescue_frame e st1 ((files.getD 1 ("", "")).1)
          (protonDirOf (files.getD 1 ("", "")).1)
        left
        refine ⟨?_, ?_, ?_⟩
        · show (_get_latest_rescue e st1 _ _).2.environPP = st.environPP
          rw [hrf.1, hframe.2.2.1]
        · show (_get_latest_rescue e st1 _ _).2.envPP = st.envPP
          rw [hrf.2.1, hframe.2.2.2.1]
        · show (_get_latest_rescue e st1 _ _).1 = Except.ok none ∨
            ∃ e2, (_get_latest_rescue e st1 _ _).1 = Except.error e2
          rw [hr]
          cases hc : excCaught e
          · exact Or.inr ⟨e, by rw [if_neg (by simp [hc])]⟩
          · exact Or.inl (by rw [if_pos (by simp [hc])])
      · simp only [_get_latest_fin]
        split
        · rcases he : _extract_dir w st1 ((files.getD 1 ("", "")).1) with ⟨re, st2, tr2⟩
          have hef := extract_frame w st1 ((files.getD 1 ("", "")).1)
          rw [he] at hef
          simp only at hef
          rcases re with e2 | u2
          · simp only [_get_latest_post]
            have hr := rescue_result e2 st2 ((files.getD 1 ("", "")).1)
              (protonDirOf (files.getD 1 ("", "")).1)
            have hrf := rescue_frame e2 st2 ((files.getD 1 ("", "")).1)
              (protonDirOf (files.getD 1 ("", "")).1)
            left
            refine ⟨?_, ?_, ?_⟩
            · show (_get_latest_rescue e2 st2 _ _).2.environPP = st.environPP
              rw [hrf.1, hef.1, hframe.2.2.1]
            · show (_get_latest_rescue e2 st2 _ _).2.envPP = st.envPP
              rw [hrf.2.1, hef.2, hframe.2.2.2.1]
            · show (_get_latest_rescue e2 st2 _ _).1 = Except.ok none ∨
                ∃ e3, (_get_latest_rescue e2 st2 _ _).1 = Except.error e3
              rw [hr]
              cases hc : excCaught e2
              · exact Or.inr ⟨e2, by rw [if_neg (by simp [hc])]⟩
              · exact Or.inl (by rw [if_pos (by simp [hc])])
          · exact Or.inr ⟨protonDirOf ((files.getD 1 ("", "")).1), rfl, rfl, rfl⟩
        · rcases he : _extract_dir w st1 ((files.getD 1 ("", "")).1) with ⟨re, st2, tr2⟩
          have hef := extract_frame w st1 ((files.getD 1 ("", "")).1)
          rw [he] at hef
          simp only at hef
          rcases re with e2 | u2
          · simp only [_get_latest_post]
            have hr := rescue_result e2 st2 ((files.getD 1 ("", "")).1)
              (protonDirOf (files.getD 1 ("", "")).1)
            have hrf := rescue_frame e2 st2 ((files.getD 1 ("", "")).1)
              (protonDirOf (files.getD 1 ("", "")).1)
            left
            refine ⟨?_, ?_, ?_⟩
            · show (_get_latest_rescue e2 st2 _ _).2.environPP = st.environPP
              rw [hrf.1, hef.1, hframe.2.2.1]
            · show (_get_latest_rescue e2 st2 _ _).2.envPP = st.envPP
              rw [hrf.2.1, hef.2, hframe.2.2.2.1]
            · show (_get_latest_rescue e2 st2 _ _).1 = Except.ok none ∨
                ∃ e3, (_get_latest_rescue e2 st2 _ _).1 = Except.error e3
              rw [hr]
              cases hc : excCaught e2
              · exact Or.inr ⟨e2, by rw [if_neg (by simp [hc])]⟩
              · exact Or.inl (by rw [if_pos (by simp [hc])])
          · exact Or.inr ⟨protonDirOf ((files.getD 1 ("", "")).1), rfl, rfl, rfl⟩

theorem steamcompat_shapes (st : St) :
    _get_from_steamcompat st = none ∨
    ∃ name st2, _get_from_steamcompat st = some st2 ∧
      st2.envPP = some (compatPath name) ∧ st2.environPP = some (compatPath name) := by
  unfold _get_from_steamcompat
  dsimp only
  split
  · exact Or.inl rfl
  · exact Or.inr ⟨_, _, rfl, rfl, rfl⟩

theorem after_shapes (w : World) (st : St) (files : List (String × String)) (tr0 : List Ev) :
    (∃ e, (get_umu_proton_after w st files tr0).1 = Except.error e) ∨
    ((get_umu_proton_after w st files tr0).1 = Except.ok st.envPP ∧
     (get_umu_proton_after w st files tr0).2.1.envPP = st.envPP ∧
     (get_umu_proton_after w st files tr0).2.1.environPP = some "") ∨
    (∃ name, (get_umu_proton_after w st files tr0).1 = Except.ok (some (compatPath name)) ∧
      (get_umu_proton_after w st files tr0).2.1.envPP = some (compatPath name) ∧
      (get_umu_proton_after w st files tr0).2.1.environPP = some (compatPath name)) := by
  unfold get_umu_proton_after
  rcases hgl : _get_latest w st files with ⟨r, st1, tr1⟩
  have hsh := getLatest_shapes w st files
  rw [hgl] at hsh
  simp only at hsh
  rcases r with e | o
  · exact Or.inl ⟨e, rfl⟩
  · rcases o with _ | _
    · dsimp only
      rcases hsh with ⟨h1, h2, _⟩ | ⟨name, hr, _, _⟩
      · rcases hsc : _get_from_steamcompat st1 with _ | st2
        · right
          left
          dsimp only
          exact ⟨by rw [h2], by rw [h2], rfl⟩
        · have hscs := steamcompat_shapes st1
          rw [hsc] at hscs
          rcases hscs with hbad | ⟨name, st2x, heq, he1, he2⟩
          · exact absurd hbad (by simp)
          · obtain rfl := Option.some.inj heq
            right
            right
            dsimp only
            exact ⟨name, by rw [he1], by rw [he1], by rw [he2]⟩
      · exact absurd hr (by simp)
    · dsimp only
      rcases hsh with ⟨_, _, hbad | ⟨e, hbad⟩⟩ | ⟨name, _, he1, he2⟩
      · exact absurd hbad (by simp)
      · exact absurd hbad (by simp)
      · right
        right
        exact ⟨name, by rw [he2], by rw [he2], by rw [he1]⟩

/-- C10: the pipeline's `PROTONPATH` publication discipline — every
non-raising run either ends in the total-failure shape, returning the `env`
dict with its entry unmodified while `environ["PROTONPATH"]` is set to the
empty string, or in a success shape in which the returned entry, the dict
entry and the process environment variable are all set to the selected
build's path; and the total-failure shape is exactly what happens when the
network is unreachable and no store entry matches the vendor prefix. -/
theorem c10_protonpath_publication :
    (∀ (w : World) (st : St),
      (∃ e, (get_umu_proton w st).1 = Except.error e) ∨
      ((get_umu_proton w st).1 = Except.ok st.envPP ∧
       (get_umu_proton w st).2.1.envPP = st.envPP ∧
       (get_umu_proton w st).2.1.environPP = some "") ∨
      (∃ name, (get_umu_proton w st).1 = Except.ok (some (compatPath name)) ∧
        (get_umu_proton w st).2.1.envPP = some (compatPath name) ∧
        (get_umu_proton w st).2.1.environPP = some (compatPath name))) ∧
    (∀ (w : World) (st : St), w.urlError = true →
      (st.compat.filter (fun n => pyStartsWith n (versionString st))).isEmpty = true →
      ((get_umu_proton w st).1 = Except.ok st.envPP ∧
       (get_umu_proton w st).2.1.envPP = st.envPP ∧
       (get_umu_proton w st).2.1.environPP = some "")) := by
  constructor
  · intro w st
    unfold get_umu_proton
    rcases hfr : _fetch_releases w with ⟨r, tr0⟩
    rcases r with e | files
    · cases e
      case urlError => exact after_shapes w { st with tmpFiles := [] } [] tr0
      all_goals exact Or.inl ⟨_, rfl⟩
    · exact after_shapes w { st with tmpFiles := [] } files tr0
  · intro w st hurl hemp
    have hfr : _fetch_releases w = (.error .urlError, [Ev.queryIndex]) := by
      simp [_fetch_releases, hurl]
    unfold get_umu_proton
    rw [hfr]
    dsimp only
    unfold get_umu_proton_after
    have hgl : _get_latest w { st with tmpFiles := [] } []
        = (.ok none, { st with tmpFiles := [] }, []) := rfl
    rw [hgl]
    dsimp only
    have hsc : _get_from_steamcompat { st with tmpFiles := [] } = none := by
      unfold _get_from_steamcompat
      dsimp only
      rw [if_pos]
      exact hemp
    rw [hsc]
    dsimp only
    exact ⟨rfl, rfl, rfl⟩

/-- C10 witness: the total-failure branch of the theorem at a concrete world
with the network unreachable and an empty store: the process environment
variable is cleared while the returned dict entry keeps its prior value. -/
theorem c10_witness :
    (get_umu_proton { okWorld with urlError := true }
        { baseSt with compat := [], envPP := some "prior" }).1
      = Except.ok (some "prior") ∧
    (get_umu_proton { okWorld with urlError := true }
        { baseSt with compat := [], envPP := some "prior" }).2.1.envPP = some "prior" ∧
    (get_umu_proton { okWorld with urlError := true }
        { baseSt with compat := [], envPP := some "prior" }).2.1.environPP = some "" :=
  c10_protonpath_publication.2 { okWorld with urlError := true }
    { baseSt with compat := [], envPP := some "prior" } rfl (by decide)
